import Mathlib

/-!
# Verification of the MSP (Minimum Support Price) service

Shallow embedding of `src/services/mspService.ts` (Agriculture-Web).

Modelling conventions:
* JavaScript runtime values are modelled by `JVal` (undefined, null, booleans,
  NaN, finite numbers, strings, arrays, objects).  IEEE-754 doubles are
  idealised as exact rationals (the kernel-computable type `Q` below);
  `NaN` is a separate constructor; the infinities are not representable
  (no operation reachable from the claims produces them).
* Strings are Lean `String`s; `toLowerCase` is modelled for ASCII (all
  category keywords are ASCII).
* Property access on non-objects is modelled as `undefined`.  Within the
  pipeline every record that reaches a property access is an object (the
  fallback entries and spread-enhanced items), so no `TypeError` site is
  reachable from the public operations.
* `ToNumber` / `parseFloat` coercion of arrays via their joined string form
  is not modelled: arrays coerce to NaN here (a plain object does coerce to
  NaN in JS).  Hex and `Infinity` numeric strings are likewise outside the
  model.  None of these shapes occurs in the pipeline's reachable data.
* Code that can throw is modelled with `Option`/`Except`; a `try`/`catch`
  in the source becomes an explicit match on the failure case.
-/

namespace MSPService

/-! ## Exact rational numbers that evaluate inside the kernel

Mathlib's `ℚ` carries normalisation proofs that block kernel reduction, so
the embedding uses its own normalised fraction type.  Every constructor
below returns a fraction in lowest terms with a positive denominator, so
structural equality coincides with value equality for all values the
pipeline builds. -/

/-- An exact rational: numerator and (positive) denominator. -/
structure Q where
  n : Int
  d : Nat
deriving DecidableEq

/-- Build the normalised fraction `n / d`. -/
def mkQ (n : Int) (d : Nat) : Q :=
  if d = 0 then ⟨0, 1⟩
  else
    let g := Nat.gcd n.natAbs d
    ⟨n / (g : Int), d / g⟩

/-- The integer `n` as a `Q`. -/
def Q.ofInt (n : Int) : Q := ⟨n, 1⟩

/-- The decimal literal `m × 10^(-k)` as a `Q` (e.g. `Q.dec 18 1` is `1.8`). -/
def Q.dec (m : Int) (k : Nat) : Q := mkQ m (10 ^ k)

/-- Exact subtraction. -/
def Q.sub (a b : Q) : Q := mkQ (a.n * (b.d : Int) - b.n * (a.d : Int)) (a.d * b.d)

/-- Exact multiplication. -/
def Q.mul (a b : Q) : Q := mkQ (a.n * b.n) (a.d * b.d)

/-- Exact division (the `b = 0` case is irrelevant: every division in the
source is guarded by a positive divisor). -/
def Q.div (a b : Q) : Q := mkQ (a.n * (b.d : Int) * b.n.sign) (a.d * b.n.natAbs)

/-- Negation. -/
def Q.neg (a : Q) : Q := ⟨-a.n, a.d⟩

/-- Multiply by `10^e` for an integer `e`. -/
def Q.mulPow10 (a : Q) (e : Int) : Q :=
  if 0 ≤ e then mkQ (a.n * (10 : Int) ^ e.toNat) a.d
  else mkQ a.n (a.d * 10 ^ (-e).toNat)

/-- `0 < a`. -/
def Q.isPos (a : Q) : Bool := 0 < a.n

/-- `a ≠ 0`. -/
def Q.isNonZero (a : Q) : Bool := a.n ≠ 0

/-- `⌊a + 1/2⌋`: rounding to the nearest integer, ties toward `+∞`
(the tie-break ECMA `toFixed` uses). -/
def Q.roundInt (a : Q) : Int := Int.fdiv (2 * a.n + (a.d : Int)) (2 * (a.d : Int))

/-- A JavaScript runtime value, as far as the service manipulates them. -/
inductive JVal where
  | undef
  | null
  | bool (b : Bool)
  | nan
  | num (q : Q)
  | str (s : String)
  | arr (elems : List JVal)
  | obj (fields : List (String × JVal))

/-- JS truthiness: `undefined`, `null`, `false`, `NaN`, `0` and `""` are
falsy; every object and array is truthy. -/
def truthy : JVal → Bool
  | JVal.undef => false
  | JVal.null => false
  | JVal.bool b => b
  | JVal.nan => false
  | JVal.num q => q.isNonZero
  | JVal.str s => decide (s ≠ "")
  | JVal.arr _ => true
  | JVal.obj _ => true

/-- Property access `v[k]`: first field with the key on objects, otherwise
`undefined` (see the model notes: no access in the pipeline reaches a
non-object). -/
def getField (v : JVal) (k : String) : JVal :=
  match v with
  | JVal.obj fs =>
    match fs.find? (fun p => p.1 = k) with
    | some p => p.2
    | none => JVal.undef
  | _ => JVal.undef

/-- JS `a || b`: `a` when truthy, else `b`. -/
def jsOr (a b : JVal) : JVal :=
  if truthy a then a else b

/-- `record.k1 || record.k2 || ... || dflt` over a key list. -/
def firstTruthy (record : JVal) (keys : List String) (dflt : JVal) : JVal :=
  match keys with
  | [] => dflt
  | k :: ks =>
    let v := getField record k
    if truthy v then v else firstTruthy record ks dflt

/-- JS strict equality `v === s` against a known string. -/
def strictEqStr (v : JVal) (s : String) : Bool :=
  match v with
  | JVal.str t => decide (t = s)
  | _ => false

/-! ## Numeric string parsing (JS `parseFloat`, `ToNumber`, `parseInt`) -/

/-- The JS whitespace characters the model recognises (the exotic Unicode
space characters are outside the model and unused by the claims). -/
def jsWhitespace (c : Char) : Bool :=
  c = ' ' || c = '\t' || c = '\n' || c = '\r' || c = '\x0b' || c = '\x0c'

/-- Digit list to natural number, most significant first. -/
def digitsToNat (ds : List Char) : Nat :=
  ds.foldl (fun a c => a * 10 + (c.toNat - 48)) 0

/-- The value of integer digits `ids` and fraction digits `fds`. -/
def digitsToQ (ids fds : List Char) : Q :=
  mkQ ((digitsToNat ids * 10 ^ fds.length + digitsToNat fds : Nat) : Int) (10 ^ fds.length)

/-- Longest prefix of a JS `StrDecimalLiteral` (sign, integer digits,
optional fraction, optional exponent; the exponent is taken only when at
least one digit follows it).  Returns the value and the unconsumed
remainder, or `none` when no digits were found. -/
def parseDecimalPrefix (cs : List Char) : Option (Q × List Char) :=
  let signRest : Bool × List Char :=
    match cs with
    | '-' :: r => (true, r)
    | '+' :: r => (false, r)
    | _ => (false, cs)
  let neg := signRest.1
  let intSpan := signRest.2.span Char.isDigit
  let ids := intSpan.1
  let fracSpan : List Char × List Char :=
    match intSpan.2 with
    | '.' :: r => r.span Char.isDigit
    | _ => ([], intSpan.2)
  let fds := fracSpan.1
  if ids.isEmpty && fds.isEmpty then none
  else
    let cs3 := fracSpan.2
    let expPart : Int × List Char :=
      match cs3 with
      | c :: r =>
        if c = 'e' || c = 'E' then
          let esignRest : Bool × List Char :=
            match r with
            | '-' :: r2 => (true, r2)
            | '+' :: r2 => (false, r2)
            | _ => (false, r)
          let eds := esignRest.2.span Char.isDigit
          if eds.1.isEmpty then (0, cs3)
          else ((if esignRest.1 then -(digitsToNat eds.1 : Int) else (digitsToNat eds.1 : Int)), eds.2)
        else (0, cs3)
      | [] => (0, cs3)
    let mant := digitsToQ ids fds
    some ((if neg then mant.neg else mant).mulPow10 expPart.1, expPart.2)

/-- JS `parseFloat` on a string: skip leading whitespace, parse the longest
decimal prefix; `none` models NaN. -/
def parseFloatStr (s : String) : Option Q :=
  match parseDecimalPrefix (s.data.dropWhile jsWhitespace) with
  | some p => some p.1
  | none => none

/-- JS `ToNumber` on a string: trim both ends, the empty string is `0`,
otherwise the whole remainder must be a numeric literal (`none` models
NaN; hex literals and `Infinity` are outside the model). -/
def strToNumber (s : String) : Option Q :=
  let cs := ((s.data.dropWhile jsWhitespace).reverse.dropWhile jsWhitespace).reverse
  if cs.isEmpty then some (Q.ofInt 0)
  else
    match parseDecimalPrefix cs with
    | some p => if p.2.isEmpty then some p.1 else none
    | none => none

/-- JS `parseInt(s)` (radix 10): skip leading whitespace, optional sign,
longest run of decimal digits; `none` models NaN. -/
def parseIntStr (s : String) : Option Int :=
  let cs := s.data.dropWhile jsWhitespace
  let signRest : Bool × List Char :=
    match cs with
    | '-' :: r => (true, r)
    | '+' :: r => (false, r)
    | _ => (false, cs)
  let ds := signRest.2.takeWhile Char.isDigit
  if ds.isEmpty then none
  else some (if signRest.1 then -(digitsToNat ds : Int) else (digitsToNat ds : Int))

/-- JS `ToNumber` on any value (`none` models NaN). -/
def toNumber : JVal → Option Q
  | JVal.undef => none
  | JVal.null => some (Q.ofInt 0)
  | JVal.bool b => some (Q.ofInt (if b then 1 else 0))
  | JVal.nan => none
  | JVal.num q => some q
  | JVal.str s => strToNumber s
  | JVal.arr _ => none
  | JVal.obj _ => none

/-- JS subtraction `a - b` with `ToNumber` coercion and NaN propagation. -/
def jsSub (a b : JVal) : JVal :=
  match toNumber a, toNumber b with
  | some x, some y => JVal.num (x.sub y)
  | _, _ => JVal.nan

/-- JS multiplication `a * b` with `ToNumber` coercion and NaN propagation. -/
def jsMul (a b : JVal) : JVal :=
  match toNumber a, toNumber b with
  | some x, some y => JVal.num (x.mul y)
  | _, _ => JVal.nan

/-- JS division `a / b` (division by zero yields an infinity, which is
outside the model; every division in the source is guarded by a positive
divisor). -/
def jsDiv (a b : JVal) : JVal :=
  match toNumber a, toNumber b with
  | some x, some y => if y.isNonZero then JVal.num (x.div y) else JVal.nan
  | _, _ => JVal.nan

/-- JS `parseFloat(v)`: `ToString` then prefix-parse.  Finite numbers
round-trip through their string form; `true`/`false`/`null`/`undefined`
stringify to non-numeric text, hence NaN. -/
def parseFloatJ : JVal → JVal
  | JVal.str s =>
    match parseFloatStr s with
    | some q => JVal.num q
    | none => JVal.nan
  | JVal.num q => JVal.num q
  | _ => JVal.nan

/-- `v > 0` for the result of a `parseFloat` (NaN compares false). -/
def posNum : JVal → Bool
  | JVal.num q => q.isPos
  | _ => false

/-- `parseFloat(x.toFixed(1))`: round to one decimal place, ties away from
negative infinity (ECMA `toFixed` picks the larger candidate); for
`|x| ≥ 10^21`, `toFixed` returns `ToString(x)`, which parses back to `x`. -/
def round1 : JVal → JVal
  | JVal.num q =>
    if (10 : Nat) ^ 21 * q.d ≤ q.n.natAbs then JVal.num q
    else JVal.num (mkQ (Q.roundInt (q.mul (Q.ofInt 10))) 10)
  | _ => JVal.nan

/-! ## Strict JSON parsing (`JSON.parse`) -/

/-- JSON insignificant whitespace. -/
def skipWs : List Char → List Char
  | c :: cs => if c = ' ' || c = '\t' || c = '\n' || c = '\r' then skipWs cs else c :: cs
  | [] => []

/-- Hexadecimal digit value. -/
def hexVal (c : Char) : Option Nat :=
  if '0' ≤ c && c ≤ '9' then some (c.toNat - 48)
  else if 'a' ≤ c && c ≤ 'f' then some (c.toNat - 87)
  else if 'A' ≤ c && c ≤ 'F' then some (c.toNat - 55)
  else none

/-- Body of a JSON string after the opening quote: content characters and
the closing quote.  Escapes are handled; an unescaped control character is
rejected (surrogate-pair recombination is outside the model). -/
def parseStringBody : List Char → Option (List Char × List Char)
  | '"' :: rest => some ([], rest)
  | '\\' :: 'u' :: h1 :: h2 :: h3 :: h4 :: r =>
    match hexVal h1, hexVal h2, hexVal h3, hexVal h4 with
    | some a, some b, some c, some d =>
      match parseStringBody r with
      | some p => some (Char.ofNat (((a * 16 + b) * 16 + c) * 16 + d) :: p.1, p.2)
      | none => none
    | _, _, _, _ => none
  | '\\' :: e :: r =>
    let ec : Option Char :=
      if e = '"' then some '"'
      else if e = '\\' then some '\\'
      else if e = '/' then some '/'
      else if e = 'b' then some '\x08'
      else if e = 'f' then some '\x0c'
      else if e = 'n' then some '\n'
      else if e = 'r' then some '\r'
      else if e = 't' then some '\t'
      else none
    match ec with
    | some c =>
      match parseStringBody r with
      | some p => some (c :: p.1, p.2)
      | none => none
    | none => none
  | c :: r =>
    if c.toNat < 32 then none
    else
      match parseStringBody r with
      | some p => some (c :: p.1, p.2)
      | none => none
  | [] => none

/-- A strict JSON number token (no leading `+`, no leading zeros, a
fraction or exponent must carry at least one digit). -/
def parseNumberTok (cs : List Char) : Option (JVal × List Char) :=
  let signRest : Bool × List Char :=
    match cs with
    | '-' :: r => (true, r)
    | _ => (false, cs)
  let neg := signRest.1
  let intPart : Option (Nat × List Char) :=
    match signRest.2 with
    | '0' :: r => some (0, r)
    | c :: r =>
      if c.isDigit then
        let sp := (c :: r).span Char.isDigit
        some (digitsToNat sp.1, sp.2)
      else none
    | [] => none
  match intPart with
  | none => none
  | some (ip, cs1) =>
    let fracPart : Option (List Char × List Char) :=
      match cs1 with
      | '.' :: r =>
        let sp := r.span Char.isDigit
        if sp.1.isEmpty then none else some (sp.1, sp.2)
      | _ => some ([], cs1)
    match fracPart with
    | none => none
    | some (fds, cs2) =>
      let expPart : Option (Int × List Char) :=
        match cs2 with
        | c :: r =>
          if c = 'e' || c = 'E' then
            let esignRest : Bool × List Char :=
              match r with
              | '-' :: r2 => (true, r2)
              | '+' :: r2 => (false, r2)
              | _ => (false, r)
            let sp := esignRest.2.span Char.isDigit
            if sp.1.isEmpty then none
            else some ((if esignRest.1 then -(digitsToNat sp.1 : Int) else (digitsToNat sp.1 : Int)), sp.2)
          else some (0, cs2)
        | [] => some (0, cs2)
      match expPart with
      | none => none
      | some (e, cs3) =>
        let mant := mkQ ((ip * 10 ^ fds.length + digitsToNat fds : Nat) : Int) (10 ^ fds.length)
        some (JVal.num ((if neg then mant.neg else mant).mulPow10 e), cs3)

/-- Record a field the way a JS object literal / `JSON.parse` does: a
repeated key keeps its first position and takes the latest value. -/
def setKey (fs : List (String × JVal)) (k : String) (v : JVal) : List (String × JVal) :=
  if fs.any (fun p => p.1 = k) then fs.map (fun p => if p.1 = k then (k, v) else p)
  else fs ++ [(k, v)]

mutual

/-- One JSON value (fuel-indexed; the fuel dominates the nesting depth). -/
def parseValue : Nat → List Char → Option (JVal × List Char)
  | 0, _ => none
  | fuel + 1, cs =>
    match skipWs cs with
    | 'n' :: 'u' :: 'l' :: 'l' :: rest => some (JVal.null, rest)
    | 't' :: 'r' :: 'u' :: 'e' :: rest => some (JVal.bool true, rest)
    | 'f' :: 'a' :: 'l' :: 's' :: 'e' :: rest => some (JVal.bool false, rest)
    | '"' :: rest =>
      match parseStringBody rest with
      | some p => some (JVal.str (String.mk p.1), p.2)
      | none => none
    | '[' :: rest =>
      (match skipWs rest with
      | ']' :: r2 => some (JVal.arr [], r2)
      | cs2 =>
        match parseElems fuel cs2 with
        | some p => some (JVal.arr p.1, p.2)
        | none => none)
    | '{' :: rest =>
      (match skipWs rest with
      | '}' :: r2 => some (JVal.obj [], r2)
      | cs2 =>
        match parseMembers fuel cs2 with
        | some p => some (JVal.obj (p.1.foldl (fun acc kv => setKey acc kv.1 kv.2) []), p.2)
        | none => none)
    | cs1 => parseNumberTok cs1

/-- Comma-separated JSON array elements up to the closing bracket. -/
def parseElems : Nat → List Char → Option (List JVal × List Char)
  | 0, _ => none
  | fuel + 1, cs =>
    match parseValue fuel cs with
    | none => none
    | some (v, r) =>
      match skipWs r with
      | ',' :: r2 =>
        (match parseElems fuel r2 with
        | some p => some (v :: p.1, p.2)
        | none => none)
      | ']' :: r2 => some ([v], r2)
      | _ => none

/-- Comma-separated JSON object members up to the closing brace. -/
def parseMembers : Nat → List Char → Option (List (String × JVal) × List Char)
  | 0, _ => none
  | fuel + 1, cs =>
    match skipWs cs with
    | '"' :: rest =>
      (match parseStringBody rest with
      | none => none
      | some (kcs, r) =>
        match skipWs r with
        | ':' :: r2 =>
          (match parseValue fuel r2 with
          | none => none
          | some (v, r3) =>
            match skipWs r3 with
            | ',' :: r4 =>
              (match parseMembers fuel r4 with
              | some p => some ((String.mk kcs, v) :: p.1, p.2)
              | none => none)
            | '}' :: r4 => some ([(String.mk kcs, v)], r4)
            | _ => none)
        | _ => none)
    | _ => none

end

/-- `JSON.parse`: a single value with only whitespace around it; `none`
models a thrown `SyntaxError`. -/
def parseJson (t : String) : Option JVal :=
  match parseValue (t.length + 1) t.data with
  | some (v, rest) => if (skipWs rest).isEmpty then some v else none
  | none => none

/-! ## Fenced-block extraction and response coercion

Source lines 274-279 (and the identical copies at 146-151 and 348-353):
```
const jsonMatch = responseText.match(/```json\n([\s\S]*?)\n```/) ||
                  responseText.match(/```\n([\s\S]*?)\n```/) ||
                  [null, responseText];
const jsonString = jsonMatch[1] || responseText;
```
-/

/-- Index of the first occurrence of `pat` in `s`. -/
def findSubstr (pat : List Char) : List Char → Option Nat
  | [] => if pat.isEmpty then some 0 else none
  | c :: rest =>
    if pat.isPrefixOf (c :: rest) then some 0
    else (findSubstr pat rest).map (fun i => i + 1)

/-- Interior of the first fenced block: the regex
`/openTag([\s\S]*?)\n```/` with a lazy group matches at the first
occurrence of the opening tag that is followed by a later `"\n```"`, and
the group is the shortest such interior.  (If the first opening tag has no
closer after it, no later one does either, since any closer for a later
tag would also serve the first.) -/
def fenceInterior (openTag : String) (t : String) : Option String :=
  match findSubstr openTag.data t.data with
  | none => none
  | some p =>
    let rest := t.data.drop (p + openTag.data.length)
    match findSubstr ("\n```").data rest with
    | none => none
    | some k => some (String.mk (rest.take k))

/-- The substring handed to `JSON.parse`: the interior of the first block
fenced by ```` ```json ````, else of the first block fenced by plain
```` ``` ````, else the whole text -- except that an *empty* interior is
falsy, so `jsonMatch[1] || responseText` falls back to the whole text. -/
def extractJsonString (t : String) : String :=
  match fenceInterior "```json\n" t with
  | some i => if i = "" then t else i
  | none =>
    match fenceInterior "```\n" t with
    | some i => if i = "" then t else i
    | none => t

/-- The response coercer shared by all three call sites: select the
substring, `JSON.parse` it, and succeed only on a non-empty array.
`none` covers both a parse `SyntaxError` (caught by the enclosing `try`)
and an empty / non-array result (the `if` guard falls through). -/
def coerceResponse (text : String) : Option (List JVal) :=
  match parseJson (extractJsonString text) with
  | some (JVal.arr xs) => if xs.isEmpty then none else some xs
  | _ => none

/-! ## Object spread and provenance stamping -/

/-- Own enumerable properties for an object spread `{...item}`: an
object's fields; a string or array contributes index keys; primitives
contribute nothing. -/
def spreadBase : JVal → List (String × JVal)
  | JVal.obj fs => fs
  | JVal.str s => s.data.enum.map (fun p => (toString p.1, JVal.str (String.mk [p.2])))
  | JVal.arr xs => xs.enum.map (fun p => (toString p.1, p.2))
  | _ => []

/-- `{...item, source, lastUpdated: <ISO time>}` (lines 155-159, 284-288). -/
def enhanceItem (source nowISO : String) (item : JVal) : JVal :=
  JVal.obj (setKey (setKey (spreadBase item) "source" (JVal.str source)) "lastUpdated" (JVal.str nowISO))

/-! ## The static reference table (`fallbackMSPRates`, lines 19-91) -/

/-- Fallback entry `k1`: Paddy (Common). -/
def fbK1 : JVal := JVal.obj [("id", JVal.str "k1"), ("crop", JVal.str "Paddy"),
  ("variety", JVal.str "Common"), ("category", JVal.str "kharif"), ("year", JVal.str "2024-25"),
  ("rate", JVal.num (Q.ofInt 2183)), ("increase", JVal.num (Q.ofInt 143)),
  ("increasePercentage", JVal.num (Q.ofInt 7))]

/-- Fallback entry `k2`: Paddy (Grade A). -/
def fbK2 : JVal := JVal.obj [("id", JVal.str "k2"), ("crop", JVal.str "Paddy"),
  ("variety", JVal.str "Grade A"), ("category", JVal.str "kharif"), ("year", JVal.str "2024-25"),
  ("rate", JVal.num (Q.ofInt 2203)), ("increase", JVal.num (Q.ofInt 143)),
  ("increasePercentage", JVal.num (Q.dec 69 1))]

/-- Fallback entry `k3`: Jowar (Hybrid). -/
def fbK3 : JVal := JVal.obj [("id", JVal.str "k3"), ("crop", JVal.str "Jowar"),
  ("variety", JVal.str "Hybrid"), ("category", JVal.str "kharif"), ("year", JVal.str "2024-25"),
  ("rate", JVal.num (Q.ofInt 2970)), ("increase", JVal.num (Q.ofInt 115)),
  ("increasePercentage", JVal.num (Q.ofInt 4))]

/-- Fallback entry `r1`: Wheat (no variety field). -/
def fbR1 : JVal := JVal.obj [("id", JVal.str "r1"), ("crop", JVal.str "Wheat"),
  ("category", JVal.str "rabi"), ("year", JVal.str "2024-25"),
  ("rate", JVal.num (Q.ofInt 2275)), ("increase", JVal.num (Q.ofInt 150)),
  ("increasePercentage", JVal.num (Q.dec 71 1))]

/-- Fallback entry `r2`: Barley. -/
def fbR2 : JVal := JVal.obj [("id", JVal.str "r2"), ("crop", JVal.str "Barley"),
  ("category", JVal.str "rabi"), ("year", JVal.str "2024-25"),
  ("rate", JVal.num (Q.ofInt 1850)), ("increase", JVal.num (Q.ofInt 115)),
  ("increasePercentage", JVal.num (Q.dec 66 1))]

/-- Fallback entry `o1`: Sugarcane. -/
def fbO1 : JVal := JVal.obj [("id", JVal.str "o1"), ("crop", JVal.str "Sugarcane"),
  ("category", JVal.str "other"), ("year", JVal.str "2024-25"),
  ("rate", JVal.num (Q.ofInt 315)), ("increase", JVal.num (Q.ofInt 10)),
  ("increasePercentage", JVal.num (Q.dec 33 1))]

/-- Fallback entry `o2`: Jute. -/
def fbO2 : JVal := JVal.obj [("id", JVal.str "o2"), ("crop", JVal.str "Jute"),
  ("category", JVal.str "other"), ("year", JVal.str "2024-25"),
  ("rate", JVal.num (Q.ofInt 5050)), ("increase", JVal.num (Q.ofInt 300)),
  ("increasePercentage", JVal.num (Q.dec 63 1))]

/-- The static reference table. -/
def fallbackMSPRates : List JVal := [fbK1, fbK2, fbK3, fbR1, fbR2, fbO1, fbO2]

/-! ## Cache and environment -/

/-- The module-level cache object (lines 103-107): held records and the
timestamp of the last successful write. -/
structure Cache where
  mspRates : Option (List JVal)
  timestamp : Nat

/-- `cache.expiry`: one hour in milliseconds. -/
def cacheExpiry : Nat := 3600000

/-- The cache as initialised at module load: `{mspRates: null, timestamp: 0}`. -/
def initialCache : Cache := ⟨none, 0⟩

/-- `clearMSPCache()` (lines 387-391). -/
def clearMSPCache (_c : Cache) : Cache := ⟨none, 0⟩

/-- The ambient environment of one invocation: whether
`VITE_GOOGLE_AI_KEY` is configured, the outcome of each
`model.generateContent` call (`Except.error` models a thrown provider
error), the value of `Date.now()` and the ISO timestamp string.  The
successive `Date.now()` calls within one invocation are modelled as a
single instant. -/
structure Env where
  hasKey : Bool
  ratesText : Except Unit String
  historyText : Except Unit String
  pwgText : Except Unit String
  now : Nat
  nowISO : String

/-- The observable outcome of one `getMSPRates()` call: the returned
records, the cache afterwards, and two control-flow observations —
whether the live-fetch attempt was entered (cache miss) and whether
`model.generateContent` was actually invoked. -/
structure RatesOutcome where
  rates : List JVal
  cache : Cache
  triedLive : Bool
  calledProvider : Bool

/-! ## The acquisition pipeline -/

/-- The live tier of `getMSPRates` (lines 243-307): a missing key throws
before the provider call and is caught at line 298; a provider error is
caught there too; a coercion failure falls through the inner `try`.  All
of these return the static table without touching the cache; only a
successful coercion stamps provenance, writes the cache and returns the
enhanced records. -/
def getMSPRatesLive (env : Env) (c : Cache) : RatesOutcome :=
  if env.hasKey = false then ⟨fallbackMSPRates, c, true, false⟩
  else
    match env.ratesText with
    | Except.error _ => ⟨fallbackMSPRates, c, true, true⟩
    | Except.ok text =>
      match coerceResponse text with
      | some items =>
        let enhanced := items.map (enhanceItem "Gemini AI generated" env.nowISO)
        ⟨enhanced, ⟨some enhanced, env.now⟩, true, true⟩
      | none => ⟨fallbackMSPRates, c, true, true⟩

/-- `getMSPRates()` (lines 215-308): serve the cache while
`cache.mspRates` is non-null and `Date.now() - cache.timestamp <
cache.expiry`, otherwise run the live tier. -/
def getMSPRates (env : Env) (c : Cache) : RatesOutcome :=
  match c.mspRates with
  | some rs =>
    if (env.now : Int) - (c.timestamp : Int) < (cacheExpiry : Int) then ⟨rs, c, false, false⟩
    else getMSPRatesLive env c
  | none => getMSPRatesLive env c

/-- `getMSPRatesByCategory(category)` (lines 310-313). -/
def getMSPRatesByCategory (env : Env) (c : Cache) (category : String) : List JVal × Cache :=
  let o := getMSPRates env c
  (o.rates.filter (fun r => strictEqStr (getField r "category") category), o.cache)

/-! ## The field-mapping normalizer (`transformDataToMSPRates`, lines 175-210) -/

/-- Keywords classifying a crop name as kharif (line 181). -/
def kharifKeywords : List String :=
  ["paddy", "jowar", "bajra", "maize", "ragi", "arhar", "moong", "urad", "cotton", "groundnut", "soybean"]

/-- Keywords classifying a crop name as rabi (line 183). -/
def rabiKeywords : List String :=
  ["wheat", "barley", "gram", "masur", "mustard", "safflower", "lentil"]

/-- JS `s.includes(pat)`. -/
def strContains (s pat : String) : Bool := (findSubstr pat.data s.data).isSome

/-- `parseFloat(record.k1 || record.k2 || record.k3 || 0)` (lines 192-193). -/
def resolveNum (record : JVal) (keys : List String) : JVal :=
  parseFloatJ (firstTruthy record keys (JVal.num (Q.ofInt 0)))

/-- One record of the normalizer (the body of the `map` at line 176).
`none` models the `TypeError` thrown by `crop.toLowerCase()` when some
name field holds a truthy non-string. -/
def transformRecord (nowISO : String) (index : Nat) (record : JVal) : Option JVal :=
  match firstTruthy record ["commodity_name", "crop_name", "crop"] (JVal.str "") with
  | JVal.str cropS =>
    let cropLower := cropS.toLower
    let category : String :=
      if kharifKeywords.any (fun c => strContains cropLower c) then "kharif"
      else if rabiKeywords.any (fun c => strContains cropLower c) then "rabi"
      else "other"
    let varietyV := jsOr (getField record "variety") (getField record "grade")
    let variety := if truthy varietyV then varietyV else JVal.undef
    let rate := resolveNum record ["msp_price", "rate", "msp"]
    let previousRate := resolveNum record ["previous_price", "previous_rate", "previous_msp"]
    let increase := if posNum previousRate then jsSub rate previousRate else JVal.undef
    let increasePercentage :=
      if posNum previousRate then
        round1 (jsMul (jsDiv (jsSub rate previousRate) previousRate) (JVal.num (Q.ofInt 100)))
      else JVal.undef
    let idV := jsOr (getField record "id") (JVal.str (String.singleton category.front ++ toString (index + 1)))
    let yearV := firstTruthy record ["year", "msp_year"] (JVal.str "2024-25")
    some (JVal.obj [("id", idV), ("crop", JVal.str cropS), ("variety", variety),
      ("category", JVal.str category), ("year", yearV), ("rate", rate),
      ("increase", increase), ("increasePercentage", increasePercentage),
      ("source", JVal.str "API data"), ("lastUpdated", JVal.str nowISO)])
  | _ => none

/-- `transformDataToMSPRates(records)`: the map over all records; a
thrown `TypeError` aborts the whole map. -/
def transformDataToMSPRates (nowISO : String) (records : List JVal) : Option (List JVal) :=
  (records.mapIdx (fun i r => transformRecord nowISO i r)).mapM (fun x => x)

/-- `processWithGemini(rawData)` (lines 114-170).  With no key it returns
the plain transformation (line 118); a provider error or coercion
failure likewise falls back to it (lines 165, 168).  A `TypeError`
thrown by the transformation at line 118 or 165 is caught at line 166,
but the handler recomputes the same transformation at line 168, so the
error propagates either way (`none`). -/
def processWithGemini (env : Env) (rawData : List JVal) : Option (List JVal) :=
  if env.hasKey = false then transformDataToMSPRates env.nowISO rawData
  else
    match env.pwgText with
    | Except.error _ => transformDataToMSPRates env.nowISO rawData
    | Except.ok text =>
      match coerceResponse text with
      | some items => some (items.map (enhanceItem "Gemini AI processed" env.nowISO))
      | none => transformDataToMSPRates env.nowISO rawData

/-! ## Historical data (`getMSPHistory`, lines 318-384) -/

/-- `a ≤ b` on `Q`. -/
def Q.ble (a b : Q) : Bool := a.n * (b.d : Int) ≤ b.n * (a.d : Int)

/-- The sort key `parseInt(a.year.split('-')[0])` of a history item.
`none` models the `TypeError` of `.split` on a non-string `year`. -/
def histYearKey (v : JVal) : Option JVal :=
  match getField v "year" with
  | JVal.str s =>
    match parseIntStr (String.mk (s.data.takeWhile (fun c => c ≠ '-'))) with
    | some i => some (JVal.num (Q.ofInt i))
    | none => some JVal.nan
  | _ => none

/-- `a` sorts no later than `b` under the comparator
`(a, b) => yearB - yearA` (descending by year; a NaN comparator value is
treated as `+0`, i.e. equal). -/
def histLe (a b : JVal) : Bool :=
  match histYearKey a, histYearKey b with
  | some (JVal.num x), some (JVal.num y) => Q.ble y x
  | _, _ => true

/-- Stable insertion of `x` after the existing elements it ties with. -/
def insertBy (le : JVal → JVal → Bool) (x : JVal) : List JVal → List JVal
  | [] => [x]
  | y :: ys => if le y x then y :: insertBy le x ys else x :: y :: ys

/-- `historicalData.sort(comparator)` (lines 357-361): a stable sort
descending by the numeric year prefix.  `none` models a comparator
`TypeError` (caught by the inner `try`, line 363); with fewer than two
elements the comparator is never invoked.  JS's stable sort with this
comparator agrees with a stable insertion sort; when some key is NaN the
relative order is implementation-defined, and no claim depends on it. -/
def sortHistory (xs : List JVal) : Option (List JVal) :=
  if xs.length ≤ 1 then some xs
  else if xs.all (fun x => (histYearKey x).isSome) then
    some (xs.foldl (fun acc x => insertBy histLe x acc) [])
  else none

/-- The synthesized 5-point history (lines 370-379):
`currentRate - (crop.increase || currentRate * 0.05) * m` for
`m ∈ {1, 1.8, 2.5, 3.2}`, after the current point. -/
def extrapolateHistory (crop : JVal) : List JVal :=
  let currentRate := getField crop "rate"
  let currentYear := getField crop "year"
  let d := jsOr (getField crop "increase") (jsMul currentRate (JVal.num (Q.dec 5 2)))
  [ JVal.obj [("year", currentYear), ("rate", currentRate)],
    JVal.obj [("year", JVal.str "2023-24"), ("rate", jsSub currentRate d)],
    JVal.obj [("year", JVal.str "2022-23"), ("rate", jsSub currentRate (jsMul d (JVal.num (Q.dec 18 1))))],
    JVal.obj [("year", JVal.str "2021-22"), ("rate", jsSub currentRate (jsMul d (JVal.num (Q.dec 25 1))))],
    JVal.obj [("year", JVal.str "2020-21"), ("rate", jsSub currentRate (jsMul d (JVal.num (Q.dec 32 1))))] ]

/-- `getMSPHistory(cropId)` (lines 318-384): resolve the crop from
`getMSPRates()`; absent -> `[]`.  Then try the provider-driven history
(missing key throws at 326, caught at 366; provider error caught at 366;
coercion failure or a comparator error caught at 363) and otherwise
extrapolate.  The outer `catch` (line 380) is unreachable: the
extrapolation never throws. -/
def getMSPHistory (env : Env) (c : Cache) (cropId : String) : List JVal × Cache :=
  let o := getMSPRates env c
  match o.rates.find? (fun r => strictEqStr (getField r "id") cropId) with
  | none => ([], o.cache)
  | some crop =>
    let live : Option (List JVal) :=
      if env.hasKey = false then none
      else
        match env.historyText with
        | Except.error _ => none
        | Except.ok text =>
          match coerceResponse text with
          | some items => sortHistory items
          | none => none
    match live with
    | some h => (h, o.cache)
    | none => (extrapolateHistory crop, o.cache)

/-! ## Specification-side definitions and concrete fixtures

The `spec...` definitions below transcribe the specification's wording (for
refinement comparisons); everything else above is transcribed from the
source. -/

/-- The selection step as §4.2 words it: "the interior of the first fenced
block tagged as JSON if one exists, else the interior of the first untagged
fenced block, else the full text". -/
def specSelect (t : String) : String :=
  match fenceInterior "```json\n" t with
  | some i => i
  | none =>
    match fenceInterior "```\n" t with
    | some i => i
    | none => t

/-- The selection step as amended: an empty fence interior falls back to
the full text (the `jsonMatch[1] || responseText` fallback). -/
def specSelectFixed (t : String) : String :=
  match fenceInterior "```json\n" t with
  | some i => if i = "" then t else i
  | none =>
    match fenceInterior "```\n" t with
    | some i => if i = "" then t else i
    | none => t

/-- Rate resolution as the amended claim words it: the first *truthy*
candidate among `msp_price`, `rate`, `msp` is parsed as floating point
(NaN when unparseable); when every candidate is falsy the rate is 0. -/
def specResolveRate (record : JVal) : JVal :=
  match (["msp_price", "rate", "msp"].map (getField record)).find? truthy with
  | some v => parseFloatJ v
  | none => JVal.num (Q.ofInt 0)

/-- The synthesized history as §4.5 words it: the current rate minus the
multipliers `{0, 1, 1.8, 2.5, 3.2}` times the crop's `increase` (or 5% of
the current rate when `increase` is absent), labeled current-year then
fixed literals. -/
def specHistory (crop : JVal) : List JVal :=
  let r := getField crop "rate"
  let d :=
    match getField crop "increase" with
    | JVal.undef => jsMul r (JVal.num (Q.dec 5 2))
    | v => v
  [ JVal.obj [("year", getField crop "year"), ("rate", r)],
    JVal.obj [("year", JVal.str "2023-24"), ("rate", jsSub r d)],
    JVal.obj [("year", JVal.str "2022-23"), ("rate", jsSub r (jsMul d (JVal.num (Q.dec 18 1))))],
    JVal.obj [("year", JVal.str "2021-22"), ("rate", jsSub r (jsMul d (JVal.num (Q.dec 25 1))))],
    JVal.obj [("year", JVal.str "2020-21"), ("rate", jsSub r (jsMul d (JVal.num (Q.dec 32 1))))] ]

/-- A fresh, valid cache entry is being served. -/
def cacheHit (env : Env) (c : Cache) : Prop :=
  ∃ rs, c.mspRates = some rs ∧ (env.now : Int) - (c.timestamp : Int) < (cacheExpiry : Int)

/-- Every tier before the static table fails: no credential, a thrown
provider error, or a response the coercer rejects. -/
def liveFails (env : Env) : Prop :=
  env.hasKey = false ∨ env.ratesText = Except.error () ∨
    ∃ t, env.ratesText = Except.ok t ∧ coerceResponse t = none

/-- Provenance stamping of a coerced provider response in `getMSPRates`. -/
def enhancedOf (env : Env) (xs : List JVal) : List JVal :=
  xs.map (enhanceItem "Gemini AI generated" env.nowISO)

/-- An environment with no credential configured. -/
def envNoKey : Env := ⟨false, Except.error (), Except.error (), Except.error (), 0, "T"⟩

/-- An environment whose provider answers every prompt with a fenced block
with an empty interior. -/
def envEmptyFence : Env :=
  ⟨true, Except.ok "```json\n\n```", Except.ok "```json\n\n```", Except.ok "```json\n\n```", 0, "T"⟩

/-- An environment observed at `Date.now() = 100`. -/
def envAt100 : Env := ⟨true, Except.ok "junk", Except.error (), Except.error (), 100, "T"⟩

/-- A cache holding one record, written at time 100. -/
def cacheAt100 : Cache := ⟨some [fbK1], 100⟩

/-- A raw record whose first truthy rate candidate does not parse. -/
def unparseableRecord : JVal := JVal.obj [("msp_price", JVal.str "abc")]

/-- The raw record of the §8 normalizer example:
`msp_price: "2183", previous_price: "2040"`. -/
def exampleRecord2183 : JVal :=
  JVal.obj [("msp_price", JVal.str "2183"), ("previous_price", JVal.str "2040")]

/-- The normalizer's output on `exampleRecord2183` at index 0. -/
def exampleTransformed : JVal := JVal.obj [("id", JVal.str "o1"), ("crop", JVal.str ""),
  ("variety", JVal.undef), ("category", JVal.str "other"), ("year", JVal.str "2024-25"),
  ("rate", JVal.num (Q.ofInt 2183)), ("increase", JVal.num (Q.ofInt 143)),
  ("increasePercentage", JVal.num (Q.ofInt 7)), ("source", JVal.str "API data"),
  ("lastUpdated", JVal.str "T")]

/-! ## Helper lemmas -/

/-- Every path through the live tier records that the attempt was entered. -/
theorem getMSPRatesLive_triedLive (env : Env) (c : Cache) :
    (getMSPRatesLive env c).triedLive = true := by
  unfold getMSPRatesLive
  by_cases hk : env.hasKey = false
  · simp [hk]
  · cases hrt : env.ratesText with
    | error u => simp [hk, hrt]
    | ok t =>
      cases hco : coerceResponse t with
      | none => simp [hk, hrt, hco]
      | some xs => simp [hk, hrt, hco]

/-- On a cache miss, `getMSPRates` runs the live tier. -/
theorem getMSPRates_miss (env : Env) (c : Cache) (h : ¬ cacheHit env c) :
    getMSPRates env c = getMSPRatesLive env c := by
  unfold getMSPRates
  cases hc : c.mspRates with
  | none => rfl
  | some rs =>
    have hnf : ¬ ((env.now : Int) - (c.timestamp : Int) < (cacheExpiry : Int)) :=
      fun hf => h ⟨rs, hc, hf⟩
    dsimp only
    rw [if_neg hnf]

/-- When every live tier fails, the live attempt returns the static table,
leaves the cache untouched, and calls the provider exactly when a key was
configured. -/
theorem getMSPRatesLive_fail (env : Env) (c : Cache) (h : liveFails env) :
    getMSPRatesLive env c = ⟨fallbackMSPRates, c, true, env.hasKey⟩ := by
  unfold getMSPRatesLive
  by_cases hk : env.hasKey = false
  · simp [hk]
  · have hk2 : env.hasKey = true := by revert hk; cases env.hasKey <;> simp
    rcases h with h | h | ⟨t, ht, hco⟩
    · exact absurd h hk
    · simp [hk2, h]
    · simp [hk2, ht, hco]

/-- `parseFloat` of a `||`-chain equals `parseFloat` of the first truthy
candidate value. -/
theorem parseFloatJ_firstTruthy (record : JVal) (keys : List String) (dflt : JVal) :
    parseFloatJ (firstTruthy record keys dflt) =
      match (keys.map (getField record)).find? truthy with
      | some v => parseFloatJ v
      | none => parseFloatJ dflt := by
  induction keys with
  | nil => rfl
  | cons k ks ih =>
    unfold firstTruthy
    by_cases h : truthy (getField record k)
    · simp [List.find?_cons, h]
    · simp [List.find?_cons, h, ih]

/-! ## The claims -/

/-- Claim C1: every outcome of cache, provider and coercion gives each of
the three public operations a value — `getMSPRates` returns the cached,
the enhanced-provider or the static records (the last in the worst case);
`getMSPRatesByCategory` is its filter; `getMSPHistory` returns the empty,
the extrapolated or the sorted live history.  No error reaches the
caller: every throwing step (`Except`/`Option` in the embedding) is
matched away inside the operations. -/
theorem C1_operations_total (env : Env) (c : Cache) (cropId category : String) :
    ((∃ rs, c.mspRates = some rs ∧ (getMSPRates env c).rates = rs) ∨
     (∃ t xs, env.ratesText = Except.ok t ∧ coerceResponse t = some xs ∧
        (getMSPRates env c).rates = enhancedOf env xs) ∨
     (getMSPRates env c).rates = fallbackMSPRates) ∧
    (env.hasKey = false → ¬ cacheHit env c →
       (getMSPRates env c).rates = fallbackMSPRates) ∧
    ((getMSPRatesByCategory env c category).1 =
       (getMSPRates env c).rates.filter (fun r => strictEqStr (getField r "category") category)) ∧
    ((getMSPHistory env c cropId).1 = [] ∨
     (∃ crop, (getMSPRates env c).rates.find? (fun r => strictEqStr (getField r "id") cropId) = some crop ∧
        (getMSPHistory env c cropId).1 = extrapolateHistory crop) ∨
     (∃ t xs h, env.historyText = Except.ok t ∧ coerceResponse t = some xs ∧
        sortHistory xs = some h ∧ (getMSPHistory env c cropId).1 = h)) := by
  refine ⟨?_, ?_, rfl, ?_⟩
  · by_cases hhit : cacheHit env c
    · rcases hhit with ⟨rs, hrs, hf⟩
      refine Or.inl ⟨rs, hrs, ?_⟩
      unfold getMSPRates
      rw [hrs]
      dsimp only
      rw [if_pos hf]
    · rw [getMSPRates_miss env c hhit]
      by_cases hk : env.hasKey = false
      · right; right; rw [getMSPRatesLive_fail env c (Or.inl hk)]
      · have hk2 : env.hasKey = true := by revert hk; cases env.hasKey <;> simp
        cases hrt : env.ratesText with
        | error u => right; right; rw [getMSPRatesLive_fail env c (Or.inr (Or.inl hrt))]
        | ok t =>
          cases hco : coerceResponse t with
          | none => right; right; rw [getMSPRatesLive_fail env c (Or.inr (Or.inr ⟨t, hrt, hco⟩))]
          | some xs =>
            refine Or.inr (Or.inl ⟨t, xs, rfl, hco, ?_⟩)
            simp [getMSPRatesLive, hk2, hrt, hco, enhancedOf]
  · intro hk hmiss
    rw [getMSPRates_miss env c hmiss, getMSPRatesLive_fail env c (Or.inl hk)]
  · unfold getMSPHistory
    dsimp only
    cases hfind : (getMSPRates env c).rates.find? (fun r => strictEqStr (getField r "id") cropId) with
    | none => exact Or.inl rfl
    | some crop =>
      by_cases hk : env.hasKey = false
      · exact Or.inr (Or.inl ⟨crop, rfl, by simp [hk]⟩)
      · have hk2 : env.hasKey = true := by revert hk; cases env.hasKey <;> simp
        cases hht : env.historyText with
        | error u => exact Or.inr (Or.inl ⟨crop, rfl, by simp [hk2]⟩)
        | ok t =>
          cases hco : coerceResponse t with
          | none => exact Or.inr (Or.inl ⟨crop, rfl, by simp [hk2, hco]⟩)
          | some xs =>
            cases hs : sortHistory xs with
            | none => exact Or.inr (Or.inl ⟨crop, rfl, by simp [hk2, hco, hs]⟩)
            | some hlist =>
              exact Or.inr (Or.inr ⟨t, xs, hlist, rfl, hco, hs, by simp [hk2, hco, hs]⟩)

/-- Claim C1, witness: with no key and an empty cache, `getMSPRates`
returns the static table. -/
theorem C1_witness :
    (getMSPRates envNoKey initialCache).rates = fallbackMSPRates :=
  (C1_operations_total envNoKey initialCache "k1" "rabi").2.1 rfl
    (fun h => by rcases h with ⟨rs, h, -⟩; exact Option.noConfusion h)

/-- Claim C2: a held record set younger than one hour is served verbatim
with no provider involvement and no cache change; an absent or stale
entry makes the call enter the live-fetch attempt. -/
theorem C2_cache_freshness (env : Env) (c : Cache) :
    (∀ rs, c.mspRates = some rs →
       (env.now : Int) - (c.timestamp : Int) < (cacheExpiry : Int) →
       getMSPRates env c = ⟨rs, c, false, false⟩) ∧
    ((c.mspRates = none ∨ ¬ ((env.now : Int) - (c.timestamp : Int) < (cacheExpiry : Int))) →
       (getMSPRates env c).triedLive = true) := by
  constructor
  · intro rs hrs hf
    unfold getMSPRates
    rw [hrs]
    dsimp only
    rw [if_pos hf]
  · intro h
    cases hc : c.mspRates with
    | none =>
      unfold getMSPRates
      rw [hc]
      exact getMSPRatesLive_triedLive env c
    | some rs =>
      rcases h with h | h
      · rw [hc] at h; exact Option.noConfusion h
      · unfold getMSPRates
        rw [hc]
        dsimp only
        rw [if_neg h]
        exact getMSPRatesLive_triedLive env c

/-- Claim C2, witness: a fresh entry written at 100 is served unchanged
at 100, and the empty initial cache enters the live attempt. -/
theorem C2_witness :
    getMSPRates envAt100 cacheAt100 = ⟨[fbK1], cacheAt100, false, false⟩ ∧
    (getMSPRates envNoKey initialCache).triedLive = true :=
  ⟨(C2_cache_freshness envAt100 cacheAt100).1 [fbK1] rfl (by decide),
   (C2_cache_freshness envNoKey initialCache).2 (Or.inl rfl)⟩

/-- Claim C3: whenever the call returns via the fallback tier it returns
the static table with the cache exactly as before; the cache changes only
on the successful provider path, which writes the enhanced records with
the current timestamp. -/
theorem C3_fallback_never_cached (env : Env) (c : Cache) :
    (¬ cacheHit env c → liveFails env →
       (getMSPRates env c).rates = fallbackMSPRates ∧ (getMSPRates env c).cache = c) ∧
    ((getMSPRates env c).cache = c ∨
       ∃ t xs, env.hasKey = true ∧ env.ratesText = Except.ok t ∧ coerceResponse t = some xs ∧
         (getMSPRates env c).cache = ⟨some (enhancedOf env xs), env.now⟩ ∧
         (getMSPRates env c).rates = enhancedOf env xs) := by
  constructor
  · intro hmiss hfail
    rw [getMSPRates_miss env c hmiss, getMSPRatesLive_fail env c hfail]
    exact ⟨rfl, rfl⟩
  · by_cases hhit : cacheHit env c
    · rcases hhit with ⟨rs, hrs, hf⟩
      left
      unfold getMSPRates
      rw [hrs]
      dsimp only
      rw [if_pos hf]
    · rw [getMSPRates_miss env c hhit]
      by_cases hk : env.hasKey = false
      · left; rw [getMSPRatesLive_fail env c (Or.inl hk)]
      · have hk2 : env.hasKey = true := by revert hk; cases env.hasKey <;> simp
        cases hrt : env.ratesText with
        | error u => left; rw [getMSPRatesLive_fail env c (Or.inr (Or.inl hrt))]
        | ok t =>
          cases hco : coerceResponse t with
          | none => left; rw [getMSPRatesLive_fail env c (Or.inr (Or.inr ⟨t, hrt, hco⟩))]
          | some xs =>
            right
            refine ⟨t, xs, hk2, rfl, hco, ?_, ?_⟩ <;>
              simp [getMSPRatesLive, hk2, hrt, hco, enhancedOf]

/-- Claim C3, witness: falling back with no key leaves the initial cache
unchanged. -/
theorem C3_witness :
    (getMSPRates envNoKey initialCache).rates = fallbackMSPRates ∧
    (getMSPRates envNoKey initialCache).cache = initialCache :=
  (C3_fallback_never_cached envNoKey initialCache).1
    (fun h => by rcases h with ⟨rs, h, -⟩; exact Option.noConfusion h)
    (Or.inl rfl)

/-- Claim C4, counterexample: for the text `"```json\n\n```"` a tagged
fenced block exists with interior `""`, so the claimed selection is that
empty interior — but the coercer hands the *full text* to the parser. -/
theorem C4_counterexample :
    specSelect "```json\n\n```" = "" ∧
    extractJsonString "```json\n\n```" = "```json\n\n```" ∧
    ("" : String) ≠ "```json\n\n```" :=
  ⟨rfl, rfl, by decide⟩

/-- Claim C4 as amended: the selection falls back to the full text when
the matched interior is empty; the parse succeeds exactly on a non-empty
array; any other outcome is the soft failure `none`, which makes the
pipeline fall through to the static table; and the three concrete
examples behave as stated. -/
theorem C4_amended (t : String) (xs : List JVal) :
    extractJsonString t = specSelectFixed t ∧
    (coerceResponse t = some xs ↔
      (parseJson (extractJsonString t) = some (JVal.arr xs) ∧ xs ≠ [])) ∧
    (coerceResponse t = none ∨ ∃ ys, coerceResponse t = some ys ∧ ys ≠ []) ∧
    (∀ env c, ¬ cacheHit env c → env.hasKey = true → env.ratesText = Except.ok t →
       coerceResponse t = none → (getMSPRates env c).rates = fallbackMSPRates) ∧
    coerceResponse "```json\n[\x7b\"a\":1\x7d]\n```" = some [JVal.obj [("a", JVal.num (Q.ofInt 1))]] ∧
    coerceResponse "[\x7b\"a\":1\x7d]" = some [JVal.obj [("a", JVal.num (Q.ofInt 1))]] ∧
    coerceResponse "not json" = none := by
  refine ⟨rfl, ?_, ?_, ?_, rfl, rfl, rfl⟩
  · constructor
    · intro h
      unfold coerceResponse at h
      cases hp : parseJson (extractJsonString t) with
      | none => rw [hp] at h; exact Option.noConfusion h
      | some v =>
        rw [hp] at h
        cases v with
        | arr ys =>
          dsimp only at h
          by_cases hy : ys.isEmpty
          · rw [if_pos hy] at h
            exact Option.noConfusion h
          · rw [if_neg hy] at h
            injection h with h2
            subst h2
            exact ⟨rfl, by simpa using hy⟩
        | undef => exact Option.noConfusion h
        | null => exact Option.noConfusion h
        | bool b => exact Option.noConfusion h
        | nan => exact Option.noConfusion h
        | num q => exact Option.noConfusion h
        | str s => exact Option.noConfusion h
        | obj fs => exact Option.noConfusion h
    · rintro ⟨hp, hne⟩
      unfold coerceResponse
      rw [hp]
      dsimp only
      rw [if_neg (by simpa using hne)]
  · unfold coerceResponse
    cases hp : parseJson (extractJsonString t) with
    | none => exact Or.inl rfl
    | some v =>
      cases v with
      | arr ys =>
        dsimp only
        by_cases hy : ys.isEmpty
        · rw [if_pos hy]; exact Or.inl rfl
        · rw [if_neg hy]; exact Or.inr ⟨ys, rfl, by simpa using hy⟩
      | undef => exact Or.inl rfl
      | null => exact Or.inl rfl
      | bool b => exact Or.inl rfl
      | nan => exact Or.inl rfl
      | num q => exact Or.inl rfl
      | str s => exact Or.inl rfl
      | obj fs => exact Or.inl rfl
  · intro env c hmiss hk hrt hco
    rw [getMSPRates_miss env c hmiss, getMSPRatesLive_fail env c (Or.inr (Or.inr ⟨t, hrt, hco⟩))]

/-- Claim C4, witness: a coercion failure on a concrete unparseable
response falls through to the static table. -/
theorem C4_witness :
    (getMSPRates envEmptyFence initialCache).rates = fallbackMSPRates :=
  (C4_amended "```json\n\n```" []).2.2.2.1 envEmptyFence initialCache
    (fun h => by rcases h with ⟨rs, h, -⟩; exact Option.noConfusion h)
    rfl rfl rfl

/-- Claim C5, counterexample: `getMSPHistory('k1')` with no credential
produces the rate `2183 - 143 × 1.8 = 1925.6` for `2022-23`, not the
`1926.6` the claim states. -/
theorem C5_counterexample :
    ((getMSPHistory envNoKey initialCache "k1").1.map (fun p => getField p "rate")) =
      [JVal.num (Q.ofInt 2183), JVal.num (Q.ofInt 2040), JVal.num (Q.dec 19256 1),
       JVal.num (Q.dec 18255 1), JVal.num (Q.dec 17254 1)] ∧
    JVal.num (Q.dec 19256 1) ≠ JVal.num (Q.dec 19266 1) :=
  ⟨rfl, by simp only [ne_eq, JVal.num.injEq]; decide⟩

/-- Claim C5 as amended: with no credential and an empty cache,
`getMSPHistory` returns the empty sequence for an unknown id, and
otherwise the 5 points of the specification formula (current rate minus
multiplier times the crop increase, or 5% of the rate when the increase
is absent), with years `2024-25` down to `2020-21` and `k1` rates
`[2183, 2040, 1925.6, 1825.5, 1725.4]` (in exact arithmetic). -/
theorem C5_amended :
    (∀ env c cropId, env.hasKey = false → c.mspRates = none →
       (getMSPHistory env c cropId).1 =
         (match fallbackMSPRates.find? (fun r => strictEqStr (getField r "id") cropId) with
          | none => []
          | some crop => specHistory crop)) ∧
    (getMSPHistory envNoKey initialCache "k1").1 =
      [ JVal.obj [("year", JVal.str "2024-25"), ("rate", JVal.num (Q.ofInt 2183))],
        JVal.obj [("year", JVal.str "2023-24"), ("rate", JVal.num (Q.ofInt 2040))],
        JVal.obj [("year", JVal.str "2022-23"), ("rate", JVal.num (Q.dec 19256 1))],
        JVal.obj [("year", JVal.str "2021-22"), ("rate", JVal.num (Q.dec 18255 1))],
        JVal.obj [("year", JVal.str "2020-21"), ("rate", JVal.num (Q.dec 17254 1))] ] ∧
    (getMSPHistory envNoKey initialCache "unknown-id").1 = [] := by
  refine ⟨?_, rfl, rfl⟩
  intro env c cropId hk hc
  have h1 : getMSPRates env c = ⟨fallbackMSPRates, c, true, false⟩ := by
    unfold getMSPRates
    rw [hc]
    unfold getMSPRatesLive
    rw [hk]
    rw [if_pos rfl]
  unfold getMSPHistory
  dsimp only
  rw [h1]
  dsimp only
  cases hfind : fallbackMSPRates.find? (fun r => strictEqStr (getField r "id") cropId) with
  | none => rfl
  | some crop =>
    have hmem := List.mem_of_find?_eq_some hfind
    rw [hk]
    rw [if_pos rfl]
    dsimp only
    simp only [fallbackMSPRates, List.mem_cons, List.not_mem_nil, or_false] at hmem
    rcases hmem with rfl | rfl | rfl | rfl | rfl | rfl | rfl <;> rfl

/-- Claim C5, witness: the general formula applied at `k1`. -/
theorem C5_witness :
    (getMSPHistory envNoKey initialCache "k1").1 =
      (match fallbackMSPRates.find? (fun r => strictEqStr (getField r "id") "k1") with
       | none => []
       | some crop => specHistory crop) :=
  C5_amended.1 envNoKey initialCache "k1" rfl rfl

/-- Claim C6, counterexample: a record whose `msp_price` is the
unparseable string `"abc"` gets rate NaN, not the claimed 0. -/
theorem C6_counterexample :
    (transformRecord "T" 0 unparseableRecord).map (fun m => getField m "rate") = some JVal.nan ∧
    JVal.nan ≠ JVal.num (Q.ofInt 0) :=
  ⟨rfl, by simp⟩

/-- Claim C6 as amended: the rate is `parseFloat` of the first *truthy*
candidate among `msp_price`, `rate`, `msp` (NaN when that value does not
parse) and 0 exactly when every candidate is absent or falsy. -/
theorem C6_amended :
    (∀ record, specResolveRate record = resolveNum record ["msp_price", "rate", "msp"]) ∧
    (∀ nowISO i record m, transformRecord nowISO i record = some m →
       getField m "rate" = resolveNum record ["msp_price", "rate", "msp"]) ∧
    (transformRecord "T" 0 (JVal.obj [])).map (fun m => getField m "rate") =
      some (JVal.num (Q.ofInt 0)) ∧
    (transformRecord "T" 0 unparseableRecord).map (fun m => getField m "rate") = some JVal.nan := by
  refine ⟨?_, ?_, rfl, rfl⟩
  · intro record
    unfold specResolveRate resolveNum
    rw [parseFloatJ_firstTruthy]
    cases h : (["msp_price", "rate", "msp"].map (getField record)).find? truthy with
    | none => rfl
    | some v => rfl
  · intro nowISO i record m h
    unfold transformRecord at h
    split at h
    · injection h with h2
      subst h2
      rfl
    · exact Option.noConfusion h

/-- Claim C6, witness: the rate field of a transformed concrete record
equals the resolver value. -/
theorem C6_witness :
    getField exampleTransformed "rate" = resolveNum exampleRecord2183 ["msp_price", "rate", "msp"] :=
  C6_amended.2.1 "T" 0 exampleRecord2183 exampleTransformed (by with_unfolding_all rfl)

/-- Claim C7: `increase` and `increasePercentage` are set exactly when the
resolved previous rate is positive, to `rate - previousRate` and the
percentage rounded to one decimal; otherwise both are absent.  On the
record `msp_price "2183", previous_price "2040"` they are 143 and 7.0. -/
theorem C7_increase_fields :
    (∀ nowISO i record m, transformRecord nowISO i record = some m →
       (posNum (resolveNum record ["previous_price", "previous_rate", "previous_msp"]) = true →
          getField m "increase" =
            jsSub (resolveNum record ["msp_price", "rate", "msp"])
              (resolveNum record ["previous_price", "previous_rate", "previous_msp"]) ∧
          getField m "increasePercentage" =
            round1 (jsMul (jsDiv
              (jsSub (resolveNum record ["msp_price", "rate", "msp"])
                (resolveNum record ["previous_price", "previous_rate", "previous_msp"]))
              (resolveNum record ["previous_price", "previous_rate", "previous_msp"]))
              (JVal.num (Q.ofInt 100)))) ∧
       (posNum (resolveNum record ["previous_price", "previous_rate", "previous_msp"]) = false →
          getField m "increase" = JVal.undef ∧
          getField m "increasePercentage" = JVal.undef)) ∧
    (transformRecord "T" 0 exampleRecord2183).map
        (fun m => (getField m "increase", getField m "increasePercentage")) =
      some (JVal.num (Q.ofInt 143), JVal.num (Q.ofInt 7)) := by
  refine ⟨?_, rfl⟩
  intro nowISO i record m h
  unfold transformRecord at h
  split at h
  · injection h with h2
    subst h2
    constructor
    · intro hp
      constructor
      · show (if posNum (resolveNum record ["previous_price", "previous_rate", "previous_msp"]) = true
              then _ else JVal.undef) = _
        rw [if_pos hp]
      · show (if posNum (resolveNum record ["previous_price", "previous_rate", "previous_msp"]) = true
              then _ else JVal.undef) = _
        rw [if_pos hp]
    · intro hp
      constructor
      · show (if posNum (resolveNum record ["previous_price", "previous_rate", "previous_msp"]) = true
              then _ else JVal.undef) = _
        rw [if_neg (by simp [hp])]
      · show (if posNum (resolveNum record ["previous_price", "previous_rate", "previous_msp"]) = true
              then _ else JVal.undef) = _
        rw [if_neg (by simp [hp])]
  · exact Option.noConfusion h

/-- Claim C7, witness: the general statement applied to the concrete §8
record. -/
theorem C7_witness :
    getField exampleTransformed "increase" =
      jsSub (resolveNum exampleRecord2183 ["msp_price", "rate", "msp"])
        (resolveNum exampleRecord2183 ["previous_price", "previous_rate", "previous_msp"]) ∧
    getField exampleTransformed "increasePercentage" =
      round1 (jsMul (jsDiv
        (jsSub (resolveNum exampleRecord2183 ["msp_price", "rate", "msp"])
          (resolveNum exampleRecord2183 ["previous_price", "previous_rate", "previous_msp"]))
        (resolveNum exampleRecord2183 ["previous_price", "previous_rate", "previous_msp"]))
        (JVal.num (Q.ofInt 100))) :=
  (C7_increase_fields.1 "T" 0 exampleRecord2183 exampleTransformed
    (by with_unfolding_all rfl)).1 (by with_unfolding_all rfl)

/-- Claim C8: `getMSPRatesByCategory` is exactly the order-preserving
filter of `getMSPRates` by strict category equality (a sublist whose
members are precisely the matching records); on the fallback table the
`rabi` entries are Wheat and Barley. -/
theorem C8_filter_by_category (env : Env) (c : Cache) (category : String) :
    ((getMSPRatesByCategory env c category).1 =
       (getMSPRates env c).rates.filter (fun r => strictEqStr (getField r "category") category)) ∧
    ((getMSPRatesByCategory env c category).2 = (getMSPRates env c).cache) ∧
    ((getMSPRatesByCategory env c category).1).Sublist (getMSPRates env c).rates ∧
    (∀ r, r ∈ (getMSPRatesByCategory env c category).1 ↔
       r ∈ (getMSPRates env c).rates ∧ strictEqStr (getField r "category") category = true) ∧
    (getMSPRatesByCategory envNoKey initialCache "rabi").1 = [fbR1, fbR2] := by
  refine ⟨rfl, rfl, List.filter_sublist _, ?_, rfl⟩
  intro r
  exact List.mem_filter

/-- Claim C9: with no credential configured, a cache miss falls back
immediately to the static table without any provider invocation, and
clearing the cache followed by `getMSPRates` does the same and does not
throw. -/
theorem C9_no_key_immediate_fallback (env : Env) (c : Cache) (hk : env.hasKey = false) :
    (¬ cacheHit env c → getMSPRates env c = ⟨fallbackMSPRates, c, true, false⟩) ∧
    getMSPRates env (clearMSPCache c) =
      ⟨fallbackMSPRates, clearMSPCache c, true, false⟩ := by
  constructor
  · intro hmiss
    rw [getMSPRates_miss env c hmiss, getMSPRatesLive_fail env c (Or.inl hk), hk]
  · have h0 : getMSPRates env (clearMSPCache c) = getMSPRatesLive env (clearMSPCache c) := rfl
    rw [h0, getMSPRatesLive_fail env (clearMSPCache c) (Or.inl hk), hk]

/-- Claim C9, witness: `clearMSPCache` then `getMSPRates` with no key
returns the static table with no provider call. -/
theorem C9_witness :
    getMSPRates envNoKey (clearMSPCache initialCache) =
      ⟨fallbackMSPRates, clearMSPCache initialCache, true, false⟩ :=
  (C9_no_key_immediate_fallback envNoKey initialCache rfl).2

/-- Claim C10: an empty fenced interior is falsy, so the coercer parses
the whole original text instead — at the shared extraction used by all
three call sites; concretely, the empty-fence response makes
`getMSPRates` fall back, `getMSPHistory` extrapolate, and
`processWithGemini` use the plain transformation. -/
theorem C10_empty_fence (t : String) :
    (fenceInterior "```json\n" t = some "" → extractJsonString t = t) ∧
    (fenceInterior "```json\n" t = none → fenceInterior "```\n" t = some "" →
       extractJsonString t = t) ∧
    extractJsonString "```json\n\n```" = "```json\n\n```" ∧
    (getMSPRates envEmptyFence initialCache).rates = fallbackMSPRates ∧
    (getMSPHistory envEmptyFence initialCache "k1").1 = extrapolateHistory fbK1 ∧
    processWithGemini envEmptyFence [] = some [] := by
  refine ⟨?_, ?_, rfl, rfl, rfl, rfl⟩
  · intro h
    unfold extractJsonString
    rw [h]
    dsimp only
    rw [if_pos rfl]
  · intro h1 h2
    unfold extractJsonString
    rw [h1, h2]
    dsimp only
    rw [if_pos rfl]

/-- Claim C10, witness: the general empty-interior rule applied to a
concrete text with surrounding noise. -/
theorem C10_witness :
    extractJsonString "x```json\n\n```y" = "x```json\n\n```y" :=
  (C10_empty_fence "x```json\n\n```y").1 rfl

end MSPService
